import Mathlib

/-
Shallow embedding of the AppFlowy-Collab synchronization subsystem:
the database view change translator (collab-database/src/views/view_observer.rs)
and the remote collab sync coordinator, message merging and message id counter
(collab-plugins/src/cloud_storage/remote_collab.rs).

External yrs/codec primitives (value decoding, update decode/apply/merge,
state vectors) are opaque in the source; they appear here as parameters of
explicit context structures, so the control flow of the translated functions
is exactly the source's.
-/

namespace ViewObserver

/-- One entry of a yrs array delta, as matched by handle_array_event:
Added(values), Removed(len) or Retain(len). Values are opaque yrs values. -/
inductive Change (V : Type) where
  | added (values : List V)
  | removed (len : Nat)
  | retain (len : Nat)
deriving DecidableEq

/-- Classification of an array event by its terminal path key
(ArrayChangeKey in view_observer.rs). -/
inductive ArrayChangeKey where
  | unhandled (s : String)
  | rowOrder
  | filter
  | sort
  | group
deriving DecidableEq

/-- The DatabaseViewChange event enum from view_observer.rs. The decoded
domain shapes (DatabaseView, RowOrder, the AnyMap-based filter/sort/group
maps, DatabaseLayout, FieldOrder) are defined outside src and stay abstract. -/
inductive DatabaseViewChange (View RowOrder AnyMap Layout FieldOrder : Type) where
  | didCreateView (view : View)
  | didUpdateView (view : View)
  | didDeleteView (view_id : String)
  | layoutSettingChanged (view_id : String) (layout_type : Layout)
  | didInsertRowOrders (row_orders : List RowOrder)
  | didDeleteRowAtIndex (index : List Nat)
  | didCreateFilters (view_id : String) (filters : List AnyMap)
  | didUpdateFilter (view_id : String)
  | didCreateGroupSettings (view_id : String) (groups : List AnyMap)
  | didUpdateGroupSetting (view_id : String)
  | didCreateSorts (view_id : String) (sorts : List AnyMap)
  | didUpdateSort (view_id : String)
  | didCreateFieldOrder (view_id : String) (field_order : FieldOrder)
  | didDeleteFieldOrder (view_id : String) (field_order : FieldOrder)
deriving DecidableEq

variable {View RowOrder AnyMap Layout FieldOrder V : Type}

/-- Decoding hooks used by handle_array_event: row_order_from_value and
AnyMap::from_value read a yrs value inside the transaction; both are fallible
and the source drops failures via flat_map. -/
structure ArrayDecodeCtx (V RowOrder AnyMap : Type) where
  row_order_from_value : V → Option RowOrder
  anymap_from_value : V → Option AnyMap

/-- Mutable state of one handle_array_event run: the running offset, the
accumulated deleted_row_index vector, and the events sent so far (in order). -/
structure ArrayFoldState (View RowOrder AnyMap Layout FieldOrder : Type) where
  offset : Nat
  deleted_row_index : List Nat
  events : List (DatabaseViewChange View RowOrder AnyMap Layout FieldOrder)
deriving DecidableEq

/-- Body of the for_each over the delta in handle_array_event: one Change is
processed against the batch classification key and the owning view id
(view_id_from_array_event, None when the event path cannot supply it). -/
def handle_array_change (ctx : ArrayDecodeCtx V RowOrder AnyMap)
    (key : ArrayChangeKey) (view_id : Option String)
    (st : ArrayFoldState View RowOrder AnyMap Layout FieldOrder) (change : Change V) :
    ArrayFoldState View RowOrder AnyMap Layout FieldOrder :=
  match change with
  | .added values =>
    match key with
    | .rowOrder =>
      let row_orders := values.filterMap ctx.row_order_from_value
      { st with events := st.events ++ [.didInsertRowOrders row_orders] }
    | .filter =>
      match view_id with
      | some vid =>
        let filters := values.filterMap ctx.anymap_from_value
        { st with events := st.events ++ [.didCreateFilters vid filters] }
      | none => st
    | .sort =>
      match view_id with
      | some vid =>
        let sorts := values.filterMap ctx.anymap_from_value
        { st with events := st.events ++ [.didCreateSorts vid sorts] }
      | none => st
    | .group =>
      match view_id with
      | some vid =>
        let groups := values.filterMap ctx.anymap_from_value
        { st with events := st.events ++ [.didCreateGroupSettings vid groups] }
      | none => st
    | .unhandled _ => st
  | .removed len =>
    match key with
    | .rowOrder =>
      let st1 :=
        if len > 0 then
          { st with deleted_row_index := st.deleted_row_index ++ List.range' st.offset len }
        else st
      { st1 with offset := st1.offset + len }
    | .filter =>
      match view_id with
      | some vid => { st with events := st.events ++ [.didUpdateFilter vid] }
      | none => st
    | .sort =>
      match view_id with
      | some vid => { st with events := st.events ++ [.didUpdateSort vid] }
      | none => st
    | .group =>
      match view_id with
      | some vid => { st with events := st.events ++ [.didUpdateGroupSetting vid] }
      | none => st
    | .unhandled _ => st
  | .retain n => { st with offset := st.offset + n }

/-- Folds a whole delta batch from the initial state (offset 0, no deleted
indices, no events). -/
def handle_array_fold (ctx : ArrayDecodeCtx V RowOrder AnyMap)
    (key : ArrayChangeKey) (view_id : Option String) (changes : List (Change V)) :
    ArrayFoldState View RowOrder AnyMap Layout FieldOrder :=
  changes.foldl (handle_array_change ctx key view_id) ⟨0, [], []⟩

/-- Full handle_array_event: fold the delta, then, if any row indices were
deleted, send one DidDeleteRowAtIndex event at batch end. -/
def handle_array_event (ctx : ArrayDecodeCtx V RowOrder AnyMap)
    (key : ArrayChangeKey) (view_id : Option String) (changes : List (Change V)) :
    List (DatabaseViewChange View RowOrder AnyMap Layout FieldOrder) :=
  let st : ArrayFoldState View RowOrder AnyMap Layout FieldOrder :=
    handle_array_fold ctx key view_id changes
  st.events ++
    (if st.deleted_row_index.isEmpty then [] else [.didDeleteRowAtIndex st.deleted_row_index])

/-- Spec-level row-order delta bookkeeping, stated from the spec's words for
the refinement claim: one running offset per batch; Retain(n) advances the
offset by n; Removed(n) captures the range [offset, offset+n) before
advancing by n; Added does not advance. Returns the final offset and the
deleted indices accumulated across the batch. -/
def row_order_delta_spec_go (offset : Nat) : List (Change V) → Nat × List Nat
  | [] => (offset, [])
  | c :: rest =>
    match c with
    | .retain n => row_order_delta_spec_go (offset + n) rest
    | .removed n =>
      let r := row_order_delta_spec_go (offset + n) rest
      (r.1, List.range' offset n ++ r.2)
    | .added _ => row_order_delta_spec_go offset rest

/-- Spec-level row-order delta bookkeeping started at offset 0. -/
def row_order_delta_spec (changes : List (Change V)) : Nat × List Nat :=
  row_order_delta_spec_go 0 changes

/-- Recognizes the batched deleted-indices event. -/
def DatabaseViewChange.isDeleteRowAtIndex :
    DatabaseViewChange View RowOrder AnyMap Layout FieldOrder → Bool
  | .didDeleteRowAtIndex _ => true
  | _ => false

/-- One entry of a yrs map delta (EntryChange in the source). -/
inductive EntryChange (V : Type) where
  | inserted (value : V)
  | updated (old : V) (value : V)
  | removed (value : V)
deriving DecidableEq

/-- Decoding hooks used by handle_map_event. view_from_map_ref and
view_id_from_map_ref read the event target inside the transaction, so they
are fixed per event; layout_key is the DATABASE_VIEW_LAYOUT constant
(defined in views/define.rs, outside src) and layout_from_str is
DatabaseLayout::from_str on the value's string form. -/
structure MapEventCtx (V View Layout : Type) where
  view_from_value : V → Option View
  view_from_map_ref : Option View
  view_id_from_map_ref : String
  layout_key : String
  layout_from_str : V → Option Layout

/-- Body of the per-key loop of handle_map_event. -/
def handle_map_entry (ctx : MapEventCtx V View Layout) (key : String)
    (change : EntryChange V) :
    List (DatabaseViewChange View RowOrder AnyMap Layout FieldOrder) :=
  match change with
  | .inserted value =>
    match ctx.view_from_value value with
    | some database_view => [.didCreateView database_view]
    | none => []
  | .updated _ value =>
    (match ctx.view_from_map_ref with
     | some database_view => [.didUpdateView database_view]
     | none => []) ++
    (if key = ctx.layout_key then
      match ctx.layout_from_str value with
      | some layout_type => [.layoutSettingChanged ctx.view_id_from_map_ref layout_type]
      | none => []
     else [])
  | .removed _ =>
    if key = "" then [] else [.didDeleteView key]

/-- Full handle_map_event: process every changed key in order. -/
def handle_map_event (ctx : MapEventCtx V View Layout)
    (keys : List (String × EntryChange V)) :
    List (DatabaseViewChange View RowOrder AnyMap Layout FieldOrder) :=
  keys.foldl (fun acc kv => acc ++ handle_map_entry ctx kv.1 kv.2) []

/-- Concrete instantiation of the decoding hooks (all opaque types as Nat,
decoding always succeeds) used to evaluate the model on concrete inputs. -/
def ctxN : ArrayDecodeCtx Nat Nat Nat := ⟨some, some⟩

/-- Concrete instantiation of the map-event hooks used to evaluate the model
on concrete inputs: the event target decodes to view 7 with id "view-1", the
layout key is "layout" and every value parses as a layout. -/
def mapCtxN : MapEventCtx Nat Nat Nat :=
  ⟨some, some 7, "view-1", "layout", some⟩

end ViewObserver

namespace CloudStorage

/-- Opaque yrs codec operations used by RemoteCollab::sync. Update::decode_v1
is fallible (Option); apply_update, state_vector and
encode_state_as_update_v1 are the transaction operations on a collab doc. -/
structure SyncCtx (Blob Upd Doc SV : Type) where
  decode_v1 : Blob → Option Upd
  apply_update : Doc → Upd → Doc
  state_vector : Doc → SV
  encode_state_as_update_v1 : Doc → SV → Blob

variable {Blob Upd Doc SV : Type}

/-- Step 2 of sync: apply the fetched historical blobs sequentially to a doc
inside one transaction; a blob that fails to decode is logged and skipped. -/
def apply_updates (c : SyncCtx Blob Upd Doc SV) (doc : Doc) (updates : List Blob) : Doc :=
  updates.foldl
    (fun d b =>
      match c.decode_v1 b with
      | some u => c.apply_update d u
      | none => d)
    doc

/-- Result of one sync run: the local collab, the remote mirror collab
(self.collab), and the blob handed to push_update, when any. -/
structure SyncResult (Blob Doc : Type) where
  local_collab : Doc
  remote_collab : Doc
  pushed : Option Blob
deriving DecidableEq

/-- Steps 2 and 3 of sync, guarded by the history being non-empty: apply the
history to the mirror, then diff the mirror against the local state vector
and apply the decoded delta to the local collab. -/
def sync_step23 (c : SyncCtx Blob Upd Doc SV) (local_collab remote_collab : Doc)
    (updates : List Blob) : Doc × Doc :=
  if updates.isEmpty then (local_collab, remote_collab)
  else
    let remote1 := apply_updates c remote_collab updates
    let local_sv := c.state_vector local_collab
    let encode_update := c.encode_state_as_update_v1 remote1 local_sv
    match c.decode_v1 encode_update with
    | some u => (c.apply_update local_collab u, remote1)
    | none => (local_collab, remote1)

/-- Step 4 of sync: diff the local collab against the mirror's state vector,
apply the decoded delta to the mirror and push the encoded blob. -/
def sync_step4 (c : SyncCtx Blob Upd Doc SV) (p : Doc × Doc) : SyncResult Blob Doc :=
  let remote_state_vector := c.state_vector p.2
  let encode_update := c.encode_state_as_update_v1 p.1 remote_state_vector
  match c.decode_v1 encode_update with
  | some u => ⟨p.1, c.apply_update p.2 u, some encode_update⟩
  | none => ⟨p.1, p.2, none⟩

/-- RemoteCollab::sync. A storage error from get_all_updates is logged and
replaced by the empty history; steps 2 and 3 run only when the history is
non-empty; step 4 always runs. -/
def sync (c : SyncCtx Blob Upd Doc SV) (fetched : Except String (List Blob))
    (local_collab remote_collab : Doc) : SyncResult Blob Doc :=
  let updates :=
    match fetched with
    | .ok u => u
    | .error _ => []
  sync_step4 c (sync_step23 c local_collab remote_collab updates)

/-- Payload bytes are modelled as naturals: only identity and count matter. -/
abbrev Payload := List Nat

/-- The outbound Message of remote_collab.rs: object id, message id and the
ordered payload fragments accumulated by merging. -/
structure Message where
  object_id : String
  msg_id : Nat
  payloads : List Payload
deriving DecidableEq

/-- Message::merge_payload pushes one more fragment at the end. -/
def Message.merge_payload (m : Message) (payload : Payload) : Message :=
  { m with payloads := m.payloads ++ [payload] }

/-- Message::payload_len sums the byte lengths of all fragments. -/
def Message.payload_len (m : Message) : Nat :=
  (m.payloads.map List.length).sum

/-- SinkMessage::length for Message. -/
def Message.length (m : Message) : Nat :=
  m.payload_len

/-- SinkMessage::can_merge for Message: merge while under 1024 bytes. -/
def Message.can_merge (m : Message) : Bool :=
  m.payload_len < 1024

/-- Message::into_payload merges all fragments through the fallible codec
merge (merge_updates_v1) and pairs the result with the message id. -/
def Message.into_payload (merge_updates_v1 : List Payload → Except String Payload)
    (m : Message) : Except String (Nat × Payload) :=
  match merge_updates_v1 m.payloads with
  | .ok u => .ok (m.msg_id, u)
  | .error e => .error e

/-- Body of the storage bridge task in RemoteCollab::new, for one message
taken from the stream: extract the merged payload, call
storage.send_update, and on success call sink.ack_msg with the message id;
a payload or transport error is only logged. Returns the acked id, if any. -/
def bridge_handle_message (merge_updates_v1 : List Payload → Except String Payload)
    (send_update : Nat → Payload → Except String Unit) (message : Message) :
    Option Nat :=
  match message.into_payload merge_updates_v1 with
  | .ok (msg_id, payload) =>
    match send_update msg_id payload with
    | .ok _ => some msg_id
    | .error _ => none
  | .error _ => none

/-- Modelled from the spec: CollabSink (collab_sync crate, not in src) keeps
the undispatched message for the target and the message id counter state.
The counter state is the last issued id (RngMsgIdCounter holds the current
value behind a mutex). -/
structure SinkState where
  pending : Option Message
  msg_id_counter : Nat
deriving DecidableEq

/-- Modelled from the spec: CollabSink::queue_or_merge_msg (collab_sync
crate, not in src). Per spec 4.1, if an undispatched message exists for the
target, apply merge_fn to it; else allocate a new id from the counter and
build a message via build_fn(id). -/
def queue_or_merge_msg (st : SinkState) (merge_fn : Message → Message)
    (build_fn : Nat → Message) : SinkState :=
  match st.pending with
  | some m => { st with pending := some (merge_fn m) }
  | none =>
    let msg_id := st.msg_id_counter + 1
    { pending := some (build_fn msg_id), msg_id_counter := msg_id }

/-- RemoteCollab::push_update: merge the new update into the pending message
when one exists, else build a fresh single-fragment message. -/
def push_update (object_id : String) (st : SinkState) (update : Payload) : SinkState :=
  queue_or_merge_msg st
    (fun prev => prev.merge_payload update)
    (fun msg_id => ⟨object_id, msg_id, [update]⟩)

/-- RANDOM_MASK from remote_collab.rs: low 12 bits. -/
def RANDOM_MASK : Nat := 2 ^ 12 - 1

/-- RngMsgIdCounter::new seeds the counter from the wall-clock milliseconds
(truncated to u64) shifted left 16, or-ed with 12 masked random bits. The
MsgId alias lives in collab_sync (not in src) and is modelled as an
unbounded natural. -/
def RngMsgIdCounter.new (timestamp_ms rand_u16 : Nat) : Nat :=
  (((timestamp_ms % 2 ^ 64) <<< 16) % 2 ^ 64) ||| ((rand_u16 % 2 ^ 16) &&& RANDOM_MASK)

/-- RngMsgIdCounter::next: add one to the stored value, store it and return
it. Returns (new stored value, returned id). -/
def RngMsgIdCounter.next (s : Nat) : Nat × Nat := (s + 1, s + 1)

/-- Ids returned by n successive next() calls from counter state s. -/
def RngMsgIdCounter.next_ids (s : Nat) : Nat → List Nat
  | 0 => []
  | n + 1 =>
    let r := RngMsgIdCounter.next s
    r.2 :: RngMsgIdCounter.next_ids r.1 n

/-- Concrete codec instantiation used to evaluate the sync model on concrete
inputs: a doc is the list of bytes applied to it, a blob decodes to itself
unless it contains the byte 9, the state vector is the doc length and the
diff against a state vector drops that many leading bytes. -/
def syncCtxN : SyncCtx (List Nat) (List Nat) (List Nat) Nat :=
  ⟨fun b => if 9 ∈ b then none else some b,
   fun d u => d ++ u,
   List.length,
   fun d sv => d.drop sv⟩

end CloudStorage

open ViewObserver CloudStorage

section ArrayEventTheorems

variable {V View RowOrder AnyMap Layout FieldOrder : Type}

/-- Helper: folding a row-order classified batch from any starting state
computes the spec-level offset, appends the spec-level deleted indices
(started at the state's offset), and emits no deleted-indices event during
the fold. -/
theorem row_order_fold_spec (ctx : ArrayDecodeCtx V RowOrder AnyMap)
    (view_id : Option String) (changes : List (Change V)) :
    ∀ st : ArrayFoldState View RowOrder AnyMap Layout FieldOrder,
      (changes.foldl (handle_array_change ctx .rowOrder view_id) st).offset
          = (row_order_delta_spec_go st.offset changes).1
      ∧ (changes.foldl (handle_array_change ctx .rowOrder view_id) st).deleted_row_index
          = st.deleted_row_index ++ (row_order_delta_spec_go st.offset changes).2
      ∧ (changes.foldl (handle_array_change ctx .rowOrder view_id) st).events.filter
            DatabaseViewChange.isDeleteRowAtIndex
          = st.events.filter DatabaseViewChange.isDeleteRowAtIndex := by
  induction changes with
  | nil =>
    intro st
    simp [row_order_delta_spec_go]
  | cons c rest ih =>
    intro st
    cases c with
    | retain n =>
      have h := ih { st with offset := st.offset + n }
      simpa [handle_array_change, row_order_delta_spec_go] using h
    | added values =>
      have h := ih { st with events := st.events ++
        [.didInsertRowOrders (values.filterMap ctx.row_order_from_value)] }
      simpa [handle_array_change, row_order_delta_spec_go,
        DatabaseViewChange.isDeleteRowAtIndex] using h
    | removed n =>
      by_cases hn : n > 0
      · have h := ih { st with
          deleted_row_index := st.deleted_row_index ++ List.range' st.offset n,
          offset := st.offset + n }
        simpa [handle_array_change, row_order_delta_spec_go, hn] using h
      · have hn0 : n = 0 := by omega
        have h := ih { st with offset := st.offset + n }
        simpa [handle_array_change, row_order_delta_spec_go, hn, hn0] using h

/-- C1 counterexample: a filter-classified delta batch consisting of the
single entry Removed(2) leaves the running offset at 0 after processing,
whereas the claim's "offset += n in all cases" requires offset 2. -/
theorem C1_counterexample :
    ¬ ((handle_array_fold ctxN .filter (some "v") [Change.removed 2]
        : ArrayFoldState Nat Nat Nat Nat Nat).offset = 2) := by
  decide

/-- C1 (amended): processing a Removed(n) entry advances the running offset
by n only for the row-order classification; for filter/sort/group
classifications with a resolvable owning view id the offset is unchanged and
exactly one updated notification carrying that view id is emitted. -/
theorem C1_removed_offset_and_notifications (ctx : ArrayDecodeCtx V RowOrder AnyMap)
    (key : ArrayChangeKey) (v : String)
    (st : ArrayFoldState View RowOrder AnyMap Layout FieldOrder) (n : Nat) :
    ((handle_array_change ctx key (some v) st (.removed n)).offset
      = if key = .rowOrder then st.offset + n else st.offset)
    ∧ ((handle_array_change ctx key (some v) st (.removed n)).events
      = st.events ++
        match key with
        | .rowOrder => []
        | .filter => [.didUpdateFilter v]
        | .sort => [.didUpdateSort v]
        | .group => [.didUpdateGroupSetting v]
        | .unhandled _ => []) := by
  cases key <;> simp [handle_array_change]
  split <;> simp

/-- C4: for every row-order array-delta batch the fold's final offset and
accumulated deleted indices equal the spec-level bookkeeping (offset starts
at 0, Retain(n) advances it by n, Removed(n) captures [offset, offset+n)
before advancing); the deleted-indices event appears exactly once, at batch
end, iff some index was deleted; and the batch [Retain(1), Removed(1)]
yields the deleted-index set consisting of index 1. -/
theorem C4_row_order_batch (ctx : ArrayDecodeCtx V RowOrder AnyMap)
    (view_id : Option String) (changes : List (Change V)) :
    ((handle_array_fold ctx .rowOrder view_id changes
        : ArrayFoldState View RowOrder AnyMap Layout FieldOrder).offset
        = (row_order_delta_spec changes).1
    ∧ (handle_array_fold ctx .rowOrder view_id changes
        : ArrayFoldState View RowOrder AnyMap Layout FieldOrder).deleted_row_index
        = (row_order_delta_spec changes).2
    ∧ (handle_array_event ctx .rowOrder view_id changes
        : List (DatabaseViewChange View RowOrder AnyMap Layout FieldOrder)).filter
          DatabaseViewChange.isDeleteRowAtIndex
        = (if (row_order_delta_spec changes).2.isEmpty then []
          else [.didDeleteRowAtIndex (row_order_delta_spec changes).2]))
    ∧ (handle_array_event ctxN .rowOrder none [.retain 1, .removed 1]
        : List (DatabaseViewChange Nat Nat Nat Nat Nat))
        = [.didDeleteRowAtIndex [1]] := by
  refine ⟨?_, by decide⟩
  obtain ⟨h1, h2, h3⟩ :=
    row_order_fold_spec ctx view_id changes
      (⟨0, [], []⟩ : ArrayFoldState View RowOrder AnyMap Layout FieldOrder)
  refine ⟨by simpa [handle_array_fold, row_order_delta_spec] using h1,
    by simpa [handle_array_fold, row_order_delta_spec] using h2, ?_⟩
  have hd : (handle_array_fold ctx .rowOrder view_id changes
      : ArrayFoldState View RowOrder AnyMap Layout FieldOrder).deleted_row_index
      = (row_order_delta_spec changes).2 := by
    simpa [handle_array_fold, row_order_delta_spec] using h2
  simp only [handle_array_event, List.filter_append, hd]
  rw [show (handle_array_fold ctx .rowOrder view_id changes
      : ArrayFoldState View RowOrder AnyMap Layout FieldOrder).events.filter
        DatabaseViewChange.isDeleteRowAtIndex = [] from by
      simpa [handle_array_fold] using h3]
  by_cases he : (row_order_delta_spec changes).2.isEmpty <;>
    simp [he, DatabaseViewChange.isDeleteRowAtIndex]

end ArrayEventTheorems

section MapEventTheorems

variable {V View RowOrder AnyMap Layout FieldOrder : Type}

/-- C7: for a map-delta Updated entry whose event target decodes to a view
and whose value parses as a layout whenever the key is the layout key, the
emitted events are exactly one view-updated event with the decoded view,
followed by a layout-changed event carrying the parsed layout iff the
changed key is the layout key; any other key emits only the view-updated
event. -/
theorem C7_map_updated_events (ctx : MapEventCtx V View Layout) (key : String)
    (oldv v : V) (dv : View) (l : Layout)
    (h1 : ctx.view_from_map_ref = some dv)
    (h2 : key = ctx.layout_key → ctx.layout_from_str v = some l) :
    (handle_map_entry ctx key (.updated oldv v)
      : List (DatabaseViewChange View RowOrder AnyMap Layout FieldOrder))
      = [.didUpdateView dv] ++
        (if key = ctx.layout_key then
          [.layoutSettingChanged ctx.view_id_from_map_ref l]
         else []) := by
  by_cases hk : key = ctx.layout_key
  · simp [handle_map_entry, h1, hk, h2 hk]
  · simp [handle_map_entry, h1, hk]

/-- Witness for C7 at a concrete input: an Updated entry on the layout key
emits the view-updated event for the decoded target view followed by the
layout-changed event with the parsed layout. -/
theorem C7_map_updated_events_witness :
    (handle_map_entry mapCtxN "layout" (.updated 0 3)
      : List (DatabaseViewChange Nat Nat Nat Nat Nat))
      = [.didUpdateView 7, .layoutSettingChanged "view-1" 3] := by
  simpa [mapCtxN] using
    (C7_map_updated_events mapCtxN "layout" 0 3 7 3 rfl (fun _ => rfl)
      : (handle_map_entry mapCtxN "layout" (.updated 0 3)
          : List (DatabaseViewChange Nat Nat Nat Nat Nat)) = _)

end MapEventTheorems

section SyncTheorems

variable {Blob Upd Doc SV : Type}

/-- Helper: step 4 never changes the local collab. -/
theorem sync_step4_local_collab (c : SyncCtx Blob Upd Doc SV) (p : Doc × Doc) :
    (sync_step4 c p).local_collab = p.1 := by
  cases h : c.decode_v1 (c.encode_state_as_update_v1 p.1 (c.state_vector p.2)) <;>
    simp [sync_step4, h]

/-- Helper: the local component after steps 2 and 3 is the original local
collab updated, when the history is non-empty, by the decoded diff of the
history-applied mirror against the local state vector. -/
theorem sync_step23_fst (c : SyncCtx Blob Upd Doc SV) (local_collab remote_collab : Doc)
    (updates : List Blob) :
    (sync_step23 c local_collab remote_collab updates).1
      = if updates.isEmpty then local_collab
        else
          match c.decode_v1 (c.encode_state_as_update_v1
              (apply_updates c remote_collab updates) (c.state_vector local_collab)) with
          | some u => c.apply_update local_collab u
          | none => local_collab := by
  by_cases h : updates.isEmpty
  · simp [sync_step23, h]
  · cases hd : c.decode_v1 (c.encode_state_as_update_v1
        (apply_updates c remote_collab updates) (c.state_vector local_collab)) <;>
      simp [sync_step23, h, hd]

/-- C2: with an empty fetched history, sync applies nothing to the local
collab and nothing historical to the mirror; the final step still runs: the
diff of the local collab against the mirror's state vector is computed,
applied to the mirror, and pushed through the sink. -/
theorem C2_sync_empty_history (c : SyncCtx Blob Upd Doc SV)
    (local_collab remote_collab : Doc) (u : Upd)
    (h : c.decode_v1 (c.encode_state_as_update_v1 local_collab
          (c.state_vector remote_collab)) = some u) :
    sync c (.ok []) local_collab remote_collab
      = ⟨local_collab, c.apply_update remote_collab u,
         some (c.encode_state_as_update_v1 local_collab (c.state_vector remote_collab))⟩ := by
  simp [sync, sync_step23, sync_step4, h]

/-- Witness for C2 at a concrete input: local [5] against the empty mirror,
empty history — the local doc is unchanged, the mirror receives the diff
[5], and the blob [5] is pushed. -/
theorem C2_sync_empty_history_witness :
    sync syncCtxN (.ok []) [5] [] = ⟨[5], [5], some [5]⟩ := by
  simpa using C2_sync_empty_history syncCtxN [5] [] [5] (by decide)

/-- C8: a historical blob that fails to decode is skipped while the rest of
the history is applied, and the local collab produced by sync is the
original local collab, first touched only by step 3's diff of the
history-applied mirror against it (hence left unchanged by step 2). -/
theorem C8_sync_history_frame (c : SyncCtx Blob Upd Doc SV)
    (local_collab remote_collab : Doc) (updates l1 l2 : List Blob) (b : Blob)
    (hb : c.decode_v1 b = none) :
    (apply_updates c remote_collab (l1 ++ b :: l2)
        = apply_updates c remote_collab (l1 ++ l2))
    ∧ ((sync c (.ok updates) local_collab remote_collab).local_collab
        = if updates.isEmpty then local_collab
          else
            match c.decode_v1 (c.encode_state_as_update_v1
                (apply_updates c remote_collab updates) (c.state_vector local_collab)) with
            | some u => c.apply_update local_collab u
            | none => local_collab) := by
  constructor
  · simp [apply_updates, List.foldl_append, hb]
  · rw [show (sync c (.ok updates) local_collab remote_collab).local_collab
        = (sync_step23 c local_collab remote_collab updates).1 from
      sync_step4_local_collab c _]
    exact sync_step23_fst c local_collab remote_collab updates

/-- Witness for C8 at a concrete input: the undecodable blob [9] is skipped
in the history [[1],[9],[2]], and sync leaves the local doc [5] to be
touched only by the step-3 diff, yielding [5, 1, 2]. -/
theorem C8_sync_history_frame_witness :
    apply_updates syncCtxN [0] [[1], [9], [2]] = apply_updates syncCtxN [0] [[1], [2]]
    ∧ (sync syncCtxN (.ok [[1], [9], [2]]) [5] [0]).local_collab = [5, 1, 2] := by
  have h := C8_sync_history_frame syncCtxN [5] [0] [[1], [9], [2]] [[1]] [[2]] [9] (by decide)
  exact ⟨h.1, by rw [h.2]; decide⟩

/-- C10: when get_all_updates fails, sync proceeds exactly as with an empty
history: no historical update reaches local or mirror, and the final
diff-and-push step still executes on the untouched pair. -/
theorem C10_storage_error_as_empty (c : SyncCtx Blob Upd Doc SV) (e : String)
    (local_collab remote_collab : Doc) :
    sync c (.error e) local_collab remote_collab
        = sync c (.ok []) local_collab remote_collab
    ∧ sync c (.error e) local_collab remote_collab
        = sync_step4 c (local_collab, remote_collab) := by
  exact ⟨rfl, rfl⟩

end SyncTheorems

section SinkTheorems

/-- C3: in the storage bridge task, ack fires for the message id exactly
when the payload extraction succeeds and send_update returns Ok on it; a
send_update error (like a payload error) produces no ack. -/
theorem C3_bridge_ack_iff_send_ok (merge_updates_v1 : List Payload → Except String Payload)
    (send_update : Nat → Payload → Except String Unit) (message : Message) :
    (bridge_handle_message merge_updates_v1 send_update message = some message.msg_id
      ↔ ∃ payload, merge_updates_v1 message.payloads = .ok payload
          ∧ send_update message.msg_id payload = .ok ())
    ∧ ∀ payload er, merge_updates_v1 message.payloads = .ok payload
        → send_update message.msg_id payload = .error er
        → bridge_handle_message merge_updates_v1 send_update message = none := by
  constructor
  · constructor
    · intro h
      cases hm : merge_updates_v1 message.payloads with
      | ok p =>
        cases hs : send_update message.msg_id p with
        | ok x =>
          exact ⟨p, rfl, by cases x; exact hs⟩
        | error er =>
          simp [bridge_handle_message, Message.into_payload, hm, hs] at h
      | error er =>
        simp [bridge_handle_message, Message.into_payload, hm] at h
    · rintro ⟨p, hm, hs⟩
      simp [bridge_handle_message, Message.into_payload, hm, hs]
  · intro p er hm hs
    simp [bridge_handle_message, Message.into_payload, hm, hs]

/-- Concrete codec merge that concatenates all fragments, for witnesses. -/
def mergeConcatC : List Payload → Except String Payload :=
  fun ps => .ok (ps.foldr (· ++ ·) [])

/-- Concrete always-failing transport send, for witnesses. -/
def sendFailC : Nat → Payload → Except String Unit :=
  fun _ _ => .error "transport"

/-- Witness for C3 at a concrete input: with a failing transport send the
bridge acks nothing. -/
theorem C3_bridge_ack_iff_send_ok_witness :
    bridge_handle_message mergeConcatC sendFailC ⟨"o", 5, [[1]]⟩ = none :=
  (C3_bridge_ack_iff_send_ok mergeConcatC sendFailC ⟨"o", 5, [[1]]⟩).2 [1] "transport" rfl rfl

/-- C5: two push_update calls before any dispatch leave exactly one pending
message holding both updates in order under one freshly allocated id, the
counter having advanced exactly once; dispatching that message hands the
codec merge of both inputs to the transport. -/
theorem C5_two_pushes_one_message (object_id : String) (c : Nat) (u1 u2 : Payload)
    (merge_updates_v1 : List Payload → Except String Payload) :
    (push_update object_id (push_update object_id ⟨none, c⟩ u1) u2).pending
        = some ⟨object_id, c + 1, [u1, u2]⟩
    ∧ (push_update object_id (push_update object_id ⟨none, c⟩ u1) u2).msg_id_counter = c + 1
    ∧ Message.into_payload merge_updates_v1 ⟨object_id, c + 1, [u1, u2]⟩
        = (match merge_updates_v1 [u1, u2] with
          | .ok u => .ok (c + 1, u)
          | .error e => .error e) :=
  ⟨rfl, rfl, rfl⟩

/-- Helper: the ids returned by n next() calls from state s form the ascending
range starting just above s. -/
theorem next_ids_eq_range' (s n : Nat) :
    RngMsgIdCounter.next_ids s n = List.range' (s + 1) n := by
  induction n generalizing s with
  | zero => rfl
  | succ n ih =>
    rw [List.range'_succ]
    simpa [RngMsgIdCounter.next_ids, RngMsgIdCounter.next] using ih (s + 1)

/-- C6: from any counter state — in particular any seed, however the wall
clock behaves after construction, since next() never reads the clock — the
ids returned by successive next() calls are pairwise strictly increasing. -/
theorem C6_msg_ids_strictly_increase (seed n : Nat) :
    (RngMsgIdCounter.next_ids seed n).Pairwise (· < ·) := by
  rw [next_ids_eq_range']
  exact List.pairwise_lt_range' (seed + 1) n 1 (by omega)

/-- C9: a pending message accepts a merge exactly when the summed byte
length of its accumulated fragments is under 1024; once the accumulated
payload reaches 1024 bytes it no longer accepts a merge, nor does it after
absorbing any further fragment. -/
theorem C9_can_merge_iff (m : Message) (p : Payload) :
    (m.can_merge = true ↔ (m.payloads.map List.length).sum < 1024)
    ∧ (1024 ≤ m.payload_len →
        m.can_merge = false ∧ (m.merge_payload p).can_merge = false) := by
  constructor
  · simp [Message.can_merge, Message.payload_len]
  · intro h
    constructor
    · simp only [Message.can_merge, decide_eq_false_iff_not, not_lt]
      exact h
    · simp only [Message.can_merge, Message.merge_payload, Message.payload_len,
        List.map_append, List.sum_append, decide_eq_false_iff_not, not_lt]
      simp only [Message.payload_len] at h
      omega

/-- Witness for C9 at a concrete input: a message holding a single 1024-byte
fragment refuses merges, also after absorbing one more fragment. -/
theorem C9_can_merge_iff_witness :
    1024 ≤ (Message.mk "o" 1 [List.replicate 1024 0]).payload_len
    ∧ (Message.mk "o" 1 [List.replicate 1024 0]).can_merge = false
    ∧ ((Message.mk "o" 1 [List.replicate 1024 0]).merge_payload [7]).can_merge = false := by
  have hlen : 1024 ≤ (Message.mk "o" 1 [List.replicate 1024 0]).payload_len := by
    simp only [Message.payload_len, List.map_cons, List.map_nil, List.length_replicate,
      List.sum_cons, List.sum_nil]
    omega
  exact ⟨hlen, ((C9_can_merge_iff (Message.mk "o" 1 [List.replicate 1024 0]) [7]).2 hlen).1,
    ((C9_can_merge_iff (Message.mk "o" 1 [List.replicate 1024 0]) [7]).2 hlen).2⟩

end SinkTheorems
